import Mathlib

/-!
A shallow embedding of the TF-IDF ranking core of `questions.py`
(`compute_idfs`, `top_files`, `top_sentences`) together with proofs of the
specification claims about it.

Modelling conventions:
* Python dictionaries that the code builds and iterates (documents, files,
  sentences, the returned IDF table) are association lists
  `List (String × _)` with the keys in insertion order, as a Python dict
  iterates them.
* The read-only IDF table consumed by the rankers is a lookup function
  `String → Option ℝ`; `none` models a key that is absent, whose subscript
  access `idfs[word]` raises `KeyError`.
* Fallible computations return `Option` (`none` = an uncaught exception) or
  `Except SErr` where the kind of exception matters.
* Python floats are modelled as real numbers; `math.log` is `Real.log`.
* Python's `sorted(..., reverse=True)` is a stable descending sort; it is
  modelled by the stable insertion sort `sortDesc` below.
-/

namespace Questions

/-- Error conditions of the sentence ranker: a failed dictionary lookup
(Python `KeyError`) or a zero divisor (Python `ZeroDivisionError`). -/
inductive SErr : Type
  | keyError : SErr
  | divByZero : SErr
  deriving DecidableEq

/-- Run a fallible computation on each element of a list in order, collecting
the results; the whole computation fails as soon as one element fails, as a
Python loop raises out of its first failing iteration. -/
def optMap {α β : Type} (f : α → Option β) : List α → Option (List β)
  | [] => some []
  | a :: l =>
    match f a, optMap f l with
    | some b, some bs => some (b :: bs)
    | _, _ => none

/-- Variant of `optMap` for `Except`: the error of the first failing element
is the error of the whole computation, matching Python's first-raise wins. -/
def excMap {ε α β : Type} (f : α → Except ε β) : List α → Except ε (List β)
  | [] => Except.ok []
  | a :: l =>
    match f a with
    | Except.error e => Except.error e
    | Except.ok b =>
      match excMap f l with
      | Except.error e => Except.error e
      | Except.ok bs => Except.ok (b :: bs)

/-- Insert `a` into `l` so that, when `l` is sorted by `key` in descending
order, the result is too, and `a` lands before every element whose key is
not larger - the placement a stable descending sort gives to an element that
originally preceded all of `l`. -/
def insDesc {α β : Type} [LinearOrder β] (key : α → β) (a : α) : List α → List α
  | [] => [a]
  | b :: l => if key a < key b then b :: insDesc key a l else a :: b :: l

/-- Stable descending insertion sort by `key`: the model of Python's
`sorted(..., key=..., reverse=True)`, which is also stable descending by the
key; two stable descending sorts by the same key agree on every input. -/
def sortDesc {α β : Type} [LinearOrder β] (key : α → β) : List α → List α
  | [] => []
  | a :: l => insDesc key a (sortDesc key l)

/-- Number of documents whose token list contains `word`: the code's
`len([document for document in documents if word in documents[document]])`
(questions.py line 113) - presence, not occurrence count. -/
def docsWith (documents : List (String × List String)) (word : String) : ℕ :=
  (documents.filter (fun d => decide (word ∈ d.2))).length

/-- The set of distinct words appearing in at least one document: the code's
`word_list` built by `set.update` over every document (lines 106-108),
modelled as the deduplicated concatenation of all token lists. -/
def wordList (documents : List (String × List String)) : List String :=
  (documents.map Prod.snd).flatten.dedup

/-- One iteration of the idf loop (lines 111-116) for `word`: fails if the
divisor `docs_with_word` is zero (`ZeroDivisionError`) or the ratio is not
positive (`math.log` domain error); otherwise yields the dictionary entry
`word ↦ ln(total_documents / docs_with_word)`. -/
noncomputable def idfEntry (documents : List (String × List String)) (word : String) :
    Option (String × ℝ) :=
  if docsWith documents word = 0 then none
  else if (documents.length : ℝ) / (docsWith documents word : ℝ) ≤ 0 then none
  else some (word, Real.log ((documents.length : ℝ) / (docsWith documents word : ℝ)))

/-- The IDF calculator `compute_idfs` (lines 92-118): the dictionary mapping
every word of `wordList documents` to its idf value, built entry by entry;
`none` models the loop raising an arithmetic error. -/
noncomputable def compute_idfs (documents : List (String × List String)) :
    Option (List (String × ℝ)) :=
  optMap (idfEntry documents) (wordList documents)

/-- The tf-idf score of one file (line 136):
`sum([files[file].count(word) * idfs[word] for word in query])`. The lookup
`idfs[word]` is performed for every query word, so a single missing word
fails the whole sum with `KeyError` (modelled by `none`). -/
noncomputable def tfidfSum (tokens : List String) (idfs : String → Option ℝ)
    (query : List String) : Option ℝ :=
  (optMap (fun w => (idfs w).map (fun v => (tokens.count w : ℝ) * v)) query).map List.sum

/-- The loop of lines 132-138: the association list `file ↦ tf-idf sum`,
in the iteration order of `files`. -/
noncomputable def scoreFiles (query : List String) (files : List (String × List String))
    (idfs : String → Option ℝ) : Option (List (String × ℝ)) :=
  optMap (fun f => (tfidfSum f.2 idfs query).map (fun s => (f.1, s))) files

/-- The document ranker `top_files` (lines 122-149): score every file, sort
stably by score descending (line 146), truncate to `n` and keep the
filenames (line 149). -/
noncomputable def top_files (query : List String) (files : List (String × List String))
    (idfs : String → Option ℝ) (n : ℕ) : Option (List String) :=
  (scoreFiles query files idfs).map
    (fun sc => ((sortDesc (fun x : String × ℝ => x.2) sc).take n).map Prod.fst)

/-- The matched-idf sum of one sentence (line 166):
`sum([idfs[word] for word in query if word in sentences[sentence]])`. The
comprehension filters on membership in the sentence before the lookup, so
`idfs[word]` is evaluated only for query words occurring in the sentence. -/
noncomputable def idfSum (query : List String) (idfs : String → Option ℝ)
    (tokens : List String) : Except SErr ℝ :=
  (excMap
    (fun w =>
      match idfs w with
      | some v => Except.ok v
      | none => Except.error SErr.keyError)
    (query.filter (fun w => decide (w ∈ tokens)))).map List.sum

/-- The query term density of one sentence (line 169): the number of its
tokens that are query members divided by its token count; a sentence with no
tokens raises `ZeroDivisionError`. -/
noncomputable def queryTermDensity (query : List String) (tokens : List String) :
    Except SErr ℝ :=
  if tokens.length = 0 then Except.error SErr.divByZero
  else Except.ok
    (((tokens.filter (fun w => decide (w ∈ query))).length : ℝ) / (tokens.length : ℝ))

/-- One iteration of the sentence loop (lines 164-171): the ranking pair
`(idf_sum, query_term_density)`, with the idf sum of line 166 evaluated
before the density of line 169, so its `KeyError` fires first. -/
noncomputable def scoreSentence (query : List String) (idfs : String → Option ℝ)
    (tokens : List String) : Except SErr (ℝ × ℝ) :=
  match idfSum query idfs tokens with
  | Except.error e => Except.error e
  | Except.ok s =>
    match queryTermDensity query tokens with
    | Except.error e => Except.error e
    | Except.ok d => Except.ok (s, d)

/-- The loop of lines 164-171 over all sentences, in iteration order. -/
noncomputable def scoreSentences (query : List String)
    (sentences : List (String × List String)) (idfs : String → Option ℝ) :
    Except SErr (List (String × (ℝ × ℝ))) :=
  excMap (fun s => (scoreSentence query idfs s.2).map (fun p => (s.1, p))) sentences

/-- The sentence ranker `top_sentences` (lines 153-178): score every
sentence, sort stably by the pair `(idf_sum, density)` descending under
Python's lexicographic tuple comparison (line 175), truncate to `n` and keep
the sentence texts (line 178). -/
noncomputable def top_sentences (query : List String)
    (sentences : List (String × List String)) (idfs : String → Option ℝ) (n : ℕ) :
    Except SErr (List String) :=
  (scoreSentences query sentences idfs).map
    (fun sc => ((sortDesc (fun x : String × (ℝ × ℝ) => toLex x.2) sc).take n).map Prod.fst)

/-- Score of a document as the specification words it: the sum over query
words `w` of (occurrences of `w` in the document) times `idf(w)`, a missing
idf contributing 0. -/
noncomputable def specScore (query : List String) (idfs : String → Option ℝ)
    (tokens : List String) : ℝ :=
  (query.map (fun w => (tokens.count w : ℝ) * ((idfs w).getD 0))).sum

/-- Matched-idf sum of a sentence as the specification words it: the sum of
`idf(w)` over query words `w` present in the sentence. -/
noncomputable def specIdfSum (query : List String) (idfs : String → Option ℝ)
    (tokens : List String) : ℝ :=
  ((query.filter (fun w => decide (w ∈ tokens))).map (fun w => (idfs w).getD 0)).sum

/-- Query term density of a sentence as the specification words it. -/
noncomputable def specDensity (query : List String) (tokens : List String) : ℝ :=
  ((tokens.filter (fun w => decide (w ∈ query))).length : ℝ) / (tokens.length : ℝ)

/-- The table `compute_idfs` builds: one entry per distinct token of the
collection, mapping it to `ln(N / d(token))`. -/
noncomputable def idfTable (documents : List (String × List String)) :
    List (String × ℝ) :=
  (wordList documents).map
    (fun w => (w, Real.log ((documents.length : ℝ) / (docsWith documents w : ℝ))))

/-- The three-document example collection from the specification's testable
properties: token `x` occurs in two documents, `y` and `z` in one each. -/
def docsEx : List (String × List String) :=
  [("a", ["x", "y"]), ("b", ["x"]), ("c", ["z"])]

/-! Infrastructure lemmas about the stable descending sort. -/

theorem insDesc_perm {α β : Type} [LinearOrder β] (key : α → β) (a : α) (l : List α) :
    List.Perm (insDesc key a l) (a :: l) := by
  induction l with
  | nil => simp [insDesc]
  | cons b l ih =>
    by_cases h : key a < key b
    · simp only [insDesc, if_pos h]
      exact (ih.cons b).trans (List.Perm.swap a b l)
    · simp only [insDesc, if_neg h]
      exact List.Perm.refl _

theorem sortDesc_perm {α β : Type} [LinearOrder β] (key : α → β) (l : List α) :
    List.Perm (sortDesc key l) l := by
  induction l with
  | nil => simp [sortDesc]
  | cons a l ih => exact (insDesc_perm key a (sortDesc key l)).trans (ih.cons a)

theorem insDesc_pairwise {α β : Type} [LinearOrder β] {key : α → β} {a : α} {l : List α}
    (hl : l.Pairwise (fun x y => key y ≤ key x)) :
    (insDesc key a l).Pairwise (fun x y => key y ≤ key x) := by
  induction l with
  | nil => simp [insDesc]
  | cons b l ih =>
    rcases List.pairwise_cons.mp hl with ⟨hb, hl'⟩
    by_cases h : key a < key b
    · simp only [insDesc, if_pos h]
      refine List.pairwise_cons.mpr ⟨?_, ih hl'⟩
      intro y hy
      rcases List.mem_cons.mp ((insDesc_perm key a l).mem_iff.mp hy) with rfl | hy2
      · exact le_of_lt h
      · exact hb y hy2
    · simp only [insDesc, if_neg h]
      refine List.pairwise_cons.mpr ⟨?_, List.pairwise_cons.mpr ⟨hb, hl'⟩⟩
      intro y hy
      rcases List.mem_cons.mp hy with rfl | hy2
      · exact le_of_not_lt h
      · exact (hb y hy2).trans (le_of_not_lt h)

theorem sortDesc_pairwise {α β : Type} [LinearOrder β] (key : α → β) (l : List α) :
    (sortDesc key l).Pairwise (fun x y => key y ≤ key x) := by
  induction l with
  | nil => simp [sortDesc]
  | cons a l ih => exact insDesc_pairwise ih

theorem insDesc_filter {α β : Type} [LinearOrder β] (key : α → β) (c : β) (a : α)
    (l : List α) :
    (insDesc key a l).filter (fun x => decide (key x = c)) =
      (a :: l).filter (fun x => decide (key x = c)) := by
  induction l with
  | nil => rfl
  | cons b l ih =>
    by_cases h : key a < key b
    · have hne : ¬ (key a = c ∧ key b = c) := by
        rintro ⟨h1, h2⟩
        exact absurd (h1.trans h2.symm) (ne_of_lt h)
      simp only [insDesc, if_pos h, List.filter_cons] at *
      rw [ih]
      by_cases hpa : key a = c <;> by_cases hpb : key b = c
      · exact absurd ⟨hpa, hpb⟩ hne
      · simp [hpa, hpb]
      · simp [hpa, hpb]
      · simp [hpa, hpb]
    · simp only [insDesc, if_neg h]

theorem sortDesc_filter {α β : Type} [LinearOrder β] (key : α → β) (c : β) (l : List α) :
    (sortDesc key l).filter (fun x => decide (key x = c)) =
      l.filter (fun x => decide (key x = c)) := by
  induction l with
  | nil => rfl
  | cons a l ih =>
    simp only [sortDesc]
    rw [insDesc_filter]
    simp only [List.filter_cons, ih]

theorem sortDesc_length {α β : Type} [LinearOrder β] (key : α → β) (l : List α) :
    (sortDesc key l).length = l.length :=
  (sortDesc_perm key l).length_eq

/-! Infrastructure lemmas about `optMap` and `excMap`. -/

theorem optMap_eq_map {α β : Type} {f : α → Option β} {g : α → β} {l : List α}
    (h : ∀ a ∈ l, f a = some (g a)) : optMap f l = some (l.map g) := by
  induction l with
  | nil => rfl
  | cons a l ih =>
    simp only [optMap, h a (List.mem_cons_self a l),
      ih (fun x hx => h x (List.mem_cons_of_mem a hx)), List.map_cons]

theorem optMap_eq_none {α β : Type} {f : α → Option β} {l : List α} {a : α}
    (ha : a ∈ l) (hfa : f a = none) : optMap f l = none := by
  induction l with
  | nil => cases ha
  | cons b l ih =>
    rcases List.mem_cons.mp ha with rfl | ha2
    · simp [optMap, hfa]
    · simp only [optMap, ih ha2]
      cases f b <;> rfl

theorem optMap_length {α β : Type} {f : α → Option β} {l : List α} {l' : List β}
    (h : optMap f l = some l') : l'.length = l.length := by
  induction l generalizing l' with
  | nil =>
    simp only [optMap, Option.some.injEq] at h
    subst h
    rfl
  | cons a l ih =>
    simp only [optMap] at h
    cases hfa : f a with
    | none => rw [hfa] at h; cases h
    | some b =>
      rw [hfa] at h
      cases hml : optMap f l with
      | none => rw [hml] at h; cases h
      | some bs =>
        rw [hml] at h
        cases h
        simp [ih hml]

theorem excMap_eq_map {ε α β : Type} {f : α → Except ε β} {g : α → β} {l : List α}
    (h : ∀ a ∈ l, f a = Except.ok (g a)) : excMap f l = Except.ok (l.map g) := by
  induction l with
  | nil => rfl
  | cons a l ih =>
    simp only [excMap, h a (List.mem_cons_self a l),
      ih (fun x hx => h x (List.mem_cons_of_mem a hx)), List.map_cons]

theorem excMap_error_mem {ε α β : Type} {f : α → Except ε β} {l : List α} {e : ε}
    (h : excMap f l = Except.error e) : ∃ a ∈ l, f a = Except.error e := by
  induction l with
  | nil => cases h
  | cons a l ih =>
    simp only [excMap] at h
    cases hfa : f a with
    | error e2 =>
      rw [hfa] at h
      cases h
      exact ⟨a, List.mem_cons_self a l, hfa⟩
    | ok b =>
      rw [hfa] at h
      cases hml : excMap f l with
      | error e2 =>
        rw [hml] at h
        cases h
        rcases ih hml with ⟨x, hx, hfx⟩
        exact ⟨x, List.mem_cons_of_mem a hx, hfx⟩
      | ok bs => rw [hml] at h; cases h

theorem excMap_length {ε α β : Type} {f : α → Except ε β} {l : List α} {l' : List β}
    (h : excMap f l = Except.ok l') : l'.length = l.length := by
  induction l generalizing l' with
  | nil =>
    simp only [excMap, Except.ok.injEq] at h
    subst h
    rfl
  | cons a l ih =>
    simp only [excMap] at h
    cases hfa : f a with
    | error e => rw [hfa] at h; cases h
    | ok b =>
      rw [hfa] at h
      cases hml : excMap f l with
      | error e => rw [hml] at h; cases h
      | ok bs =>
        rw [hml] at h
        cases h
        simp [ih hml]

/-! Lemmas about the IDF calculator. -/

theorem mem_wordList {documents : List (String × List String)} {w : String} :
    w ∈ wordList documents ↔ ∃ d ∈ documents, w ∈ d.2 := by
  unfold wordList
  rw [List.mem_dedup, List.mem_flatten]
  constructor
  · rintro ⟨l, hl, hw⟩
    rcases List.mem_map.mp hl with ⟨d, hd, rfl⟩
    exact ⟨d, hd, hw⟩
  · rintro ⟨d, hd, hw⟩
    exact ⟨d.2, List.mem_map.mpr ⟨d, hd, rfl⟩, hw⟩

theorem docsWith_pos {documents : List (String × List String)} {w : String}
    (h : ∃ d ∈ documents, w ∈ d.2) : 0 < docsWith documents w := by
  rcases h with ⟨d, hd, hw⟩
  have hmem : d ∈ documents.filter (fun d => decide (w ∈ d.2)) :=
    List.mem_filter.mpr ⟨hd, by simpa using hw⟩
  exact List.length_pos.mpr (List.ne_nil_of_mem hmem)

theorem docsWith_le (documents : List (String × List String)) (w : String) :
    docsWith documents w ≤ documents.length :=
  List.length_filter_le _ _

theorem docsWith_ratio_pos {documents : List (String × List String)} {w : String}
    (h : 0 < docsWith documents w) :
    (0 : ℝ) < (documents.length : ℝ) / (docsWith documents w : ℝ) := by
  have hN : 0 < documents.length := lt_of_lt_of_le h (docsWith_le documents w)
  exact div_pos (by exact_mod_cast hN) (by exact_mod_cast h)

theorem idfEntry_eq_some {documents : List (String × List String)} {w : String}
    (h : 0 < docsWith documents w) :
    idfEntry documents w =
      some (w, Real.log ((documents.length : ℝ) / (docsWith documents w : ℝ))) := by
  rw [idfEntry, if_neg (Nat.pos_iff_ne_zero.mp h),
    if_neg (not_le.mpr (docsWith_ratio_pos h))]

theorem compute_idfs_eq (documents : List (String × List String)) :
    compute_idfs documents = some (idfTable documents) := by
  unfold compute_idfs idfTable
  exact optMap_eq_map (fun w hw => idfEntry_eq_some (docsWith_pos (mem_wordList.mp hw)))

theorem idfTable_keys (documents : List (String × List String)) :
    (idfTable documents).map Prod.fst = wordList documents := by
  simp [idfTable, List.map_map, Function.comp_def]

theorem mem_idfTable {documents : List (String × List String)} {t : String} {v : ℝ} :
    (t, v) ∈ idfTable documents ↔
      t ∈ wordList documents ∧
        v = Real.log ((documents.length : ℝ) / (docsWith documents t : ℝ)) := by
  constructor
  · intro h
    rcases List.mem_map.mp h with ⟨w, hw, heq⟩
    injection heq with h1 h2
    subst h1
    exact ⟨hw, h2.symm⟩
  · rintro ⟨hw, rfl⟩
    exact List.mem_map.mpr ⟨t, hw, rfl⟩

theorem idfTable_mono {documents : List (String × List String)} {t t' : String}
    {v v' : ℝ} (h : (t, v) ∈ idfTable documents) (h' : (t', v') ∈ idfTable documents)
    (hle : docsWith documents t ≤ docsWith documents t') : v' ≤ v := by
  rcases mem_idfTable.mp h with ⟨hw, rfl⟩
  rcases mem_idfTable.mp h' with ⟨hw', rfl⟩
  have hd : 0 < docsWith documents t := docsWith_pos (mem_wordList.mp hw)
  have hd' : 0 < docsWith documents t' := docsWith_pos (mem_wordList.mp hw')
  have hN : (0 : ℝ) ≤ (documents.length : ℝ) := by positivity
  refine Real.log_le_log (docsWith_ratio_pos hd') ?_
  gcongr

theorem idfTable_nonneg {documents : List (String × List String)} {t : String} {v : ℝ}
    (h : (t, v) ∈ idfTable documents) : 0 ≤ v := by
  rcases mem_idfTable.mp h with ⟨hw, rfl⟩
  have hd : 0 < docsWith documents t := docsWith_pos (mem_wordList.mp hw)
  refine Real.log_nonneg ((one_le_div ?_).mpr ?_)
  · exact_mod_cast hd
  · exact_mod_cast docsWith_le documents t

/-! Claims about the IDF calculator. -/

/-- Claim C3, counterexample: applied to the empty document collection,
`compute_idfs` does not fail with an arithmetic-domain error - the word loop
has nothing to iterate over, so no division is ever executed, and the call
returns a value, namely the empty IDF table. -/
theorem C3_counterexample : compute_idfs [] = some [] := rfl

/-- Claim C3, amended: `compute_idfs` on an empty document collection returns
the empty IDF table rather than failing; more generally it never raises an
arithmetic error on any input, because the division is executed only for
tokens drawn from the documents themselves. -/
theorem C3_compute_idfs_total (documents : List (String × List String)) :
    ∃ table, compute_idfs documents = some table :=
  ⟨idfTable documents, compute_idfs_eq documents⟩

/-- Claim C2: for every non-empty documents mapping, `compute_idfs` returns a
table whose keys are exactly the tokens occurring in at least one document,
each exactly once, and the entry of token `t` is `ln(N / d(t))` where `N` is
the document count and `d(t) = docsWith documents t` is the number of
documents containing `t` at least once (presence, not occurrence count). -/
theorem C2_compute_idfs_spec (documents : List (String × List String))
    (table : List (String × ℝ)) (hne : documents ≠ [])
    (hkeys : (documents.map Prod.fst).Nodup)
    (htab : compute_idfs documents = some table) :
    (table.map Prod.fst).Nodup ∧
      (∀ t : String, t ∈ table.map Prod.fst ↔ ∃ d ∈ documents, t ∈ d.2) ∧
      (∀ t v, (t, v) ∈ table →
        v = Real.log ((documents.length : ℝ) / (docsWith documents t : ℝ))) := by
  rw [compute_idfs_eq] at htab
  injection htab with htab
  subst htab
  refine ⟨?_, ?_, ?_⟩
  · rw [idfTable_keys]
    exact List.nodup_dedup _
  · intro t
    rw [idfTable_keys, mem_wordList]
  · intro t v hmem
    exact (mem_idfTable.mp hmem).2

/-- Concrete instantiation of claim C2 on the specification's example
collection, including the example value `idf(x) = ln(3/2)`. -/
theorem C2_witness :
    docsEx ≠ [] ∧ (docsEx.map Prod.fst).Nodup ∧
      compute_idfs docsEx = some (idfTable docsEx) ∧
      ("x", Real.log ((3 : ℝ) / 2)) ∈ idfTable docsEx ∧
      (((idfTable docsEx).map Prod.fst).Nodup ∧
        (∀ t : String, t ∈ (idfTable docsEx).map Prod.fst ↔ ∃ d ∈ docsEx, t ∈ d.2) ∧
        (∀ t v, (t, v) ∈ idfTable docsEx →
          v = Real.log ((docsEx.length : ℝ) / (docsWith docsEx t : ℝ)))) := by
  refine ⟨by decide, by decide, compute_idfs_eq docsEx, ?_,
    C2_compute_idfs_spec docsEx (idfTable docsEx) (by decide) (by decide)
      (compute_idfs_eq docsEx)⟩
  have hd : docsWith docsEx "x" = 2 := by decide
  have hl : docsEx.length = 3 := rfl
  rw [mem_idfTable, hd, hl]
  exact ⟨by decide, by norm_num⟩

/-- Claim C8: for a non-empty collection, every token of the word list has a
strictly positive presence count, the ratio fed to the logarithm is strictly
positive, and consequently the idf-entry computation cannot fail with a
division-by-zero or logarithm-domain error. -/
theorem C8_divisor_pos (documents : List (String × List String))
    (hne : documents ≠ []) (w : String) (hw : w ∈ wordList documents) :
    0 < docsWith documents w ∧
      (0 : ℝ) < (documents.length : ℝ) / (docsWith documents w : ℝ) ∧
      idfEntry documents w ≠ none := by
  have h1 := docsWith_pos (mem_wordList.mp hw)
  refine ⟨h1, docsWith_ratio_pos h1, ?_⟩
  rw [idfEntry_eq_some h1]
  exact Option.some_ne_none _

/-- Concrete instantiation of claim C8 at token `x` of the example
collection. -/
theorem C8_witness :
    docsEx ≠ [] ∧ "x" ∈ wordList docsEx ∧
      (0 < docsWith docsEx "x" ∧
        (0 : ℝ) < (docsEx.length : ℝ) / (docsWith docsEx "x" : ℝ) ∧
        idfEntry docsEx "x" ≠ none) :=
  ⟨by decide, by decide, C8_divisor_pos docsEx (by decide) "x" (by decide)⟩

/-- Claim C9: every value of the computed IDF table is non-negative; values
are antitone in document presence; a token occurring in every document has
value `ln(1) = 0`; and a token occurring in exactly one document has value
`ln(N)`, the maximum of the table. -/
theorem C9_idf_nonneg_monotone (documents : List (String × List String))
    (table : List (String × ℝ)) (hne : documents ≠ [])
    (htab : compute_idfs documents = some table) :
    (∀ p ∈ table, 0 ≤ p.2) ∧
      (∀ p ∈ table, ∀ q ∈ table,
        docsWith documents p.1 ≤ docsWith documents q.1 → q.2 ≤ p.2) ∧
      (∀ p ∈ table, (∀ d ∈ documents, p.1 ∈ d.2) → p.2 = 0) ∧
      (∀ p ∈ table, docsWith documents p.1 = 1 →
        p.2 = Real.log (documents.length : ℝ) ∧ ∀ q ∈ table, q.2 ≤ p.2) := by
  rw [compute_idfs_eq] at htab
  injection htab with htab
  subst htab
  refine ⟨?_, ?_, ?_, ?_⟩
  · rintro ⟨t, v⟩ hp
    exact idfTable_nonneg hp
  · rintro ⟨t, v⟩ hp ⟨t', v'⟩ hq hle
    exact idfTable_mono hp hq hle
  · rintro ⟨t, v⟩ hp hall
    rcases mem_idfTable.mp hp with ⟨hw, rfl⟩
    have hfull : documents.filter (fun d => decide (t ∈ d.2)) = documents :=
      List.filter_eq_self.mpr (fun d hd => by simpa using hall d hd)
    have hd : docsWith documents t = documents.length := by
      rw [docsWith, hfull]
    have hN : (documents.length : ℝ) ≠ 0 := by
      exact_mod_cast Nat.pos_iff_ne_zero.mp (List.length_pos.mpr hne)
    simp only [hd]
    rw [div_self hN, Real.log_one]
  · rintro ⟨t, v⟩ hp h1
    rcases mem_idfTable.mp hp with ⟨hw, rfl⟩
    constructor
    · simp only [h1]
      norm_num
    · rintro ⟨t', v'⟩ hq
      refine idfTable_mono hp hq ?_
      rw [h1]
      exact docsWith_pos (mem_wordList.mp (mem_idfTable.mp hq).1)

/-- Concrete instantiation of claim C9 on the example collection. -/
theorem C9_witness :
    docsEx ≠ [] ∧ compute_idfs docsEx = some (idfTable docsEx) ∧
      ((∀ p ∈ idfTable docsEx, 0 ≤ p.2) ∧
        (∀ p ∈ idfTable docsEx, ∀ q ∈ idfTable docsEx,
          docsWith docsEx p.1 ≤ docsWith docsEx q.1 → q.2 ≤ p.2) ∧
        (∀ p ∈ idfTable docsEx, (∀ d ∈ docsEx, p.1 ∈ d.2) → p.2 = 0) ∧
        (∀ p ∈ idfTable docsEx, docsWith docsEx p.1 = 1 →
          p.2 = Real.log (docsEx.length : ℝ) ∧ ∀ q ∈ idfTable docsEx, q.2 ≤ p.2)) :=
  ⟨by decide, compute_idfs_eq docsEx,
    C9_idf_nonneg_monotone docsEx (idfTable docsEx) (by decide) (compute_idfs_eq docsEx)⟩

/-! Lemmas about the document ranker. -/

theorem optMap_map_eq {α β γ : Type} {f : α → Option β} {l : List α} {l' : List β}
    {g : β → γ} {h : α → γ} (hl : optMap f l = some l')
    (hf : ∀ a b, f a = some b → g b = h a) : l'.map g = l.map h := by
  induction l generalizing l' with
  | nil =>
    simp only [optMap, Option.some.injEq] at hl
    subst hl
    rfl
  | cons a l ih =>
    simp only [optMap] at hl
    cases hfa : f a with
    | none => rw [hfa] at hl; cases hl
    | some b =>
      rw [hfa] at hl
      cases hml : optMap f l with
      | none => rw [hml] at hl; cases hl
      | some bs =>
        rw [hml] at hl
        cases hl
        simp only [List.map_cons, hf a b hfa, ih hml]

theorem tfidfSum_eq {tokens : List String} {idfs : String → Option ℝ}
    {query : List String} (hq : ∀ w ∈ query, (idfs w).isSome) :
    tfidfSum tokens idfs query = some (specScore query idfs tokens) := by
  unfold tfidfSum specScore
  have h : ∀ w ∈ query, (idfs w).map (fun v => (tokens.count w : ℝ) * v) =
      some ((tokens.count w : ℝ) * ((idfs w).getD 0)) := by
    intro w hw
    rcases Option.isSome_iff_exists.mp (hq w hw) with ⟨v, hv⟩
    rw [hv]
    rfl
  rw [optMap_eq_map h]
  rfl

theorem scoreFiles_eq {query : List String} {files : List (String × List String)}
    {idfs : String → Option ℝ} (hq : ∀ w ∈ query, (idfs w).isSome) :
    scoreFiles query files idfs =
      some (files.map (fun f => (f.1, specScore query idfs f.2))) := by
  unfold scoreFiles
  have h : ∀ f ∈ files, (tfidfSum f.2 idfs query).map (fun s => (f.1, s)) =
      some (f.1, specScore query idfs f.2) := by
    intro f hf
    rw [tfidfSum_eq hq]
    rfl
  rw [optMap_eq_map h]

theorem top_files_eq {query : List String} {files : List (String × List String)}
    {idfs : String → Option ℝ} (hq : ∀ w ∈ query, (idfs w).isSome) (n : ℕ) :
    top_files query files idfs n =
      some (((sortDesc (fun x : String × ℝ => x.2)
        (files.map (fun f => (f.1, specScore query idfs f.2)))).take n).map Prod.fst) := by
  unfold top_files
  rw [scoreFiles_eq hq]
  rfl

/-! Claims about the document ranker. -/

/-- Claim C1, counterexample: with query token `cat` absent from the IDF
table, `top_files` does not succeed - it fails with a lookup error (`none`,
the model of `KeyError` raised by `idfs[word]` on line 136) - whereas the
same call with the unknown token removed from the query returns a ranking;
the two results differ, refuting the claimed equality. -/
theorem C1_counterexample :
    top_files ["cat"] [("d1", ["dog"])] (fun _ => none) 1 = none ∧
      top_files [] [("d1", ["dog"])] (fun _ => none) 1 = some ["d1"] :=
  ⟨rfl, rfl⟩

/-- Claim C1, amended: if some query token has no entry in the IDF table and
the files mapping is non-empty, `top_files` fails with a lookup error
(`KeyError`) instead of returning a ranking: line 136 evaluates `idfs[word]`
for every query word, not only for words that occur in the document. -/
theorem C1_missing_idf_errors (query : List String)
    (files : List (String × List String)) (idfs : String → Option ℝ) (n : ℕ)
    (hf : files ≠ []) (hmiss : ∃ w ∈ query, idfs w = none) :
    top_files query files idfs n = none := by
  rcases hmiss with ⟨w, hw, hnone⟩
  rcases files with _ | ⟨f, fs⟩
  · exact absurd rfl hf
  · unfold top_files scoreFiles
    have hts : tfidfSum f.2 idfs query = none := by
      unfold tfidfSum
      rw [optMap_eq_none hw (by rw [hnone]; rfl)]
      rfl
    have hg : (tfidfSum f.2 idfs query).map (fun s => (f.1, s)) = none := by
      rw [hts]
      rfl
    rw [optMap_eq_none (List.mem_cons_self f fs) hg]
    rfl

/-- Concrete instantiation of amended claim C1: token `cat` of the query has
no IDF entry (while `dog` has one), and `top_files` fails. -/
theorem C1_witness :
    ([("d1", ["dog"])] : List (String × List String)) ≠ [] ∧
      (∃ w ∈ (["cat", "dog"] : List String),
        (fun w => if w = "dog" then some (1 : ℝ) else none) w = none) ∧
      top_files ["cat", "dog"] [("d1", ["dog"])]
        (fun w => if w = "dog" then some (1 : ℝ) else none) 1 = none :=
  ⟨by decide, ⟨"cat", by decide, rfl⟩,
    C1_missing_idf_errors _ _ _ 1 (by decide) ⟨"cat", by decide, rfl⟩⟩

/-- Claim C4: when the IDF table covers every query token, `top_files`
returns, before truncation to `n`, exactly the stable descending sort of the
documents by the score `S(f) = Σ over w in query of count(w, files[f]) ×
idf(w)` (`specScore`); the sorted list is a permutation of the scored input
with scores pairwise descending; and on the two-document example with query
`cat`, document `d2` (two occurrences) is returned before `d1` (one). -/
theorem C4_top_files_tfidf_ranking :
    (∀ (query : List String) (files : List (String × List String))
        (idfs : String → Option ℝ) (n : ℕ), (∀ w ∈ query, (idfs w).isSome) →
        top_files query files idfs n =
          some (((sortDesc (fun x : String × ℝ => x.2)
            (files.map (fun f => (f.1, specScore query idfs f.2)))).take n).map
              Prod.fst)) ∧
      (∀ sc : List (String × ℝ),
        (sortDesc (fun x : String × ℝ => x.2) sc).Pairwise (fun x y => y.2 ≤ x.2) ∧
          List.Perm (sortDesc (fun x : String × ℝ => x.2) sc) sc) ∧
      top_files ["cat"] [("d1", ["cat", "dog"]), ("d2", ["cat", "cat"])]
        (fun w => if w = "cat" then some 1 else none) 2 = some ["d2", "d1"] := by
  refine ⟨fun query files idfs n hq => top_files_eq hq n,
    fun sc => ⟨sortDesc_pairwise _ _, sortDesc_perm _ _⟩, ?_⟩
  norm_num [top_files, scoreFiles, tfidfSum, optMap, sortDesc, insDesc,
    List.count_cons, show ("dog" : String) ≠ "cat" from by decide]

/-- Concrete instantiation of claim C4's covered-query part on the
two-document example. -/
theorem C4_witness :
    (∀ w ∈ (["cat"] : List String),
        ((fun w => if w = "cat" then some (1 : ℝ) else none) w).isSome) ∧
      top_files ["cat"] [("d1", ["cat", "dog"]), ("d2", ["cat", "cat"])]
          (fun w => if w = "cat" then some 1 else none) 2 =
        some (((sortDesc (fun x : String × ℝ => x.2)
          (([("d1", ["cat", "dog"]), ("d2", ["cat", "cat"])] :
              List (String × List String)).map
            (fun f => (f.1, specScore ["cat"]
              (fun w => if w = "cat" then some 1 else none) f.2)))).take 2).map
                Prod.fst) := by
  have hq : ∀ w ∈ (["cat"] : List String),
      ((fun w => if w = "cat" then some (1 : ℝ) else none) w).isSome := by
    intro w hw
    rcases List.mem_singleton.mp hw with rfl
    rfl
  exact ⟨hq, C4_top_files_tfidf_ranking.1 _ _ _ 2 hq⟩

/-- Claim C7: the sort of `top_files` is stable - for every score value, the
documents attaining it appear in the ranking in exactly the order they were
encountered in the input mapping (whose order the scored list preserves);
the untruncated ranking is the stable descending sort of the scored list. -/
theorem C7_top_files_stable (query : List String)
    (files : List (String × List String)) (idfs : String → Option ℝ)
    (sc : List (String × ℝ)) (hsc : scoreFiles query files idfs = some sc) :
    sc.map Prod.fst = files.map Prod.fst ∧
      (∀ c : ℝ, (sortDesc (fun x : String × ℝ => x.2) sc).filter
          (fun x => decide (x.2 = c)) = sc.filter (fun x => decide (x.2 = c))) ∧
      top_files query files idfs files.length =
        some ((sortDesc (fun x : String × ℝ => x.2) sc).map Prod.fst) := by
  have hlen : sc.length = files.length := by
    unfold scoreFiles at hsc
    exact optMap_length hsc
  refine ⟨?_, fun c => sortDesc_filter _ c sc, ?_⟩
  · refine optMap_map_eq (by unfold scoreFiles at hsc; exact hsc) ?_
    intro a b hab
    rcases Option.map_eq_some'.mp hab with ⟨s, hs, rfl⟩
    rfl
  · unfold top_files
    rw [hsc]
    have : (sortDesc (fun x : String × ℝ => x.2) sc).take files.length =
        sortDesc (fun x : String × ℝ => x.2) sc := by
      apply List.take_of_length_le
      rw [sortDesc_length, hlen]
    simp only [Option.map_some', this]

/-- Concrete instantiation of claim C7 on two documents with equal scores:
the tie is returned in input order. -/
theorem C7_witness :
    scoreFiles ["x"] [("a", ["x"]), ("b", ["x"])]
        (fun w => if w = "x" then some (1 : ℝ) else none) =
      some [("a", 1), ("b", 1)] ∧
      ([(("a" : String), (1 : ℝ)), ("b", 1)].map Prod.fst =
          ([("a", ["x"]), ("b", ["x"])] : List (String × List String)).map Prod.fst ∧
        (∀ c : ℝ, (sortDesc (fun x : String × ℝ => x.2)
            [("a", 1), ("b", 1)]).filter (fun x => decide (x.2 = c)) =
          [(("a" : String), (1 : ℝ)), ("b", 1)].filter (fun x => decide (x.2 = c))) ∧
        top_files ["x"] [("a", ["x"]), ("b", ["x"])]
            (fun w => if w = "x" then some (1 : ℝ) else none)
            ([("a", ["x"]), ("b", ["x"])] : List (String × List String)).length =
          some ((sortDesc (fun x : String × ℝ => x.2)
            [(("a" : String), (1 : ℝ)), ("b", 1)]).map Prod.fst)) := by
  have hsc : scoreFiles ["x"] [("a", ["x"]), ("b", ["x"])]
      (fun w => if w = "x" then some (1 : ℝ) else none) =
      some [("a", 1), ("b", 1)] := by
    norm_num [scoreFiles, tfidfSum, optMap, List.count_cons]
  exact ⟨hsc, C7_top_files_stable _ _ _ _ hsc⟩

/-! Lemmas about the sentence ranker. -/

theorem except_map_eq_error {ε α β : Type} {x : Except ε α} {g : α → β} {e : ε} :
    x.map g = Except.error e ↔ x = Except.error e := by
  cases x <;> simp [Except.map]

theorem idfSum_eq {query : List String} {idfs : String → Option ℝ}
    {tokens : List String} (hq : ∀ w ∈ tokens, (idfs w).isSome) :
    idfSum query idfs tokens = Except.ok (specIdfSum query idfs tokens) := by
  unfold idfSum specIdfSum
  have h : ∀ w ∈ query.filter (fun w => decide (w ∈ tokens)),
      (match idfs w with
        | some v => Except.ok v
        | none => Except.error SErr.keyError) = Except.ok ((idfs w).getD 0) := by
    intro w hw
    have hmem : w ∈ tokens := by simpa using (List.mem_filter.mp hw).2
    rcases Option.isSome_iff_exists.mp (hq w hmem) with ⟨v, hv⟩
    rw [hv]
    rfl
  rw [excMap_eq_map h]
  rfl

theorem queryTermDensity_eq {query tokens : List String} (h : tokens ≠ []) :
    queryTermDensity query tokens = Except.ok (specDensity query tokens) := by
  have h0 : ¬ tokens.length = 0 := fun h0 => h (List.length_eq_zero.mp h0)
  rw [queryTermDensity, if_neg h0]
  rfl

theorem scoreSentence_eq {query : List String} {idfs : String → Option ℝ}
    {tokens : List String} (hne : tokens ≠ [])
    (hq : ∀ w ∈ tokens, (idfs w).isSome) :
    scoreSentence query idfs tokens =
      Except.ok (specIdfSum query idfs tokens, specDensity query tokens) := by
  unfold scoreSentence
  rw [idfSum_eq hq, queryTermDensity_eq hne]

theorem scoreSentences_eq {query : List String}
    {sentences : List (String × List String)} {idfs : String → Option ℝ}
    (hne : ∀ s ∈ sentences, s.2 ≠ [])
    (hq : ∀ s ∈ sentences, ∀ w ∈ s.2, (idfs w).isSome) :
    scoreSentences query sentences idfs =
      Except.ok (sentences.map
        (fun s => (s.1, (specIdfSum query idfs s.2, specDensity query s.2)))) := by
  unfold scoreSentences
  have h : ∀ s ∈ sentences,
      (scoreSentence query idfs s.2).map (fun p => (s.1, p)) =
        Except.ok (s.1, (specIdfSum query idfs s.2, specDensity query s.2)) := by
    intro s hs
    rw [scoreSentence_eq (hne s hs) (hq s hs)]
    rfl
  rw [excMap_eq_map h]

theorem top_sentences_eq {query : List String}
    {sentences : List (String × List String)} {idfs : String → Option ℝ}
    (hne : ∀ s ∈ sentences, s.2 ≠ [])
    (hq : ∀ s ∈ sentences, ∀ w ∈ s.2, (idfs w).isSome) (n : ℕ) :
    top_sentences query sentences idfs n =
      Except.ok (((sortDesc (fun x : String × (ℝ × ℝ) => toLex x.2)
        (sentences.map (fun s =>
          (s.1, (specIdfSum query idfs s.2, specDensity query s.2))))).take n).map
            Prod.fst) := by
  unfold top_sentences
  rw [scoreSentences_eq hne hq]
  rfl

theorem scoreSentence_ne_keyError {query : List String} {idfs : String → Option ℝ}
    {tokens : List String} (hq : ∀ w ∈ tokens, (idfs w).isSome) :
    scoreSentence query idfs tokens ≠ Except.error SErr.keyError := by
  intro hbad
  unfold scoreSentence at hbad
  cases his : idfSum query idfs tokens with
  | error e =>
    rw [his] at hbad
    injection hbad with hbad
    subst hbad
    unfold idfSum at his
    rcases excMap_error_mem (except_map_eq_error.mp his) with ⟨w, hw, hmatch⟩
    have hmem : w ∈ tokens := by
      simpa using (List.mem_filter.mp hw).2
    rcases Option.isSome_iff_exists.mp (hq w hmem) with ⟨v, hv⟩
    rw [hv] at hmatch
    cases hmatch
  | ok s =>
    rw [his] at hbad
    cases hqd : queryTermDensity query tokens with
    | error e =>
      rw [hqd] at hbad
      injection hbad with hbad
      subst hbad
      unfold queryTermDensity at hqd
      by_cases h0 : tokens.length = 0
      · rw [if_pos h0] at hqd
        injection hqd with hqd
        cases hqd
      · rw [if_neg h0] at hqd
        cases hqd
    | ok d =>
      rw [hqd] at hbad
      cases hbad

/-! Claims about the sentence ranker and truncation. -/

/-- Claim C5: for non-empty token sequences and an IDF table covering every
sentence token, `top_sentences` returns, before truncation, the stable
descending sort of the sentences by the pair `(idf_sum, density)` under
lexicographic comparison with both components descending, where `idf_sum`
sums `idf(w)` over query words present in the sentence (`specIdfSum`) and
`density` is the fraction of sentence tokens belonging to the query
(`specDensity`); the sorted list is pairwise descending in that order and a
permutation of the input; and of two sentences with equal idf sum and
densities 1/2 versus 1/4, the denser is returned first. -/
theorem C5_top_sentences_ranking :
    (∀ (query : List String) (sentences : List (String × List String))
        (idfs : String → Option ℝ) (n : ℕ),
        (∀ s ∈ sentences, s.2 ≠ []) →
        (∀ s ∈ sentences, ∀ w ∈ s.2, (idfs w).isSome) →
        top_sentences query sentences idfs n =
          Except.ok (((sortDesc (fun x : String × (ℝ × ℝ) => toLex x.2)
            (sentences.map (fun s =>
              (s.1, (specIdfSum query idfs s.2, specDensity query s.2))))).take
                n).map Prod.fst)) ∧
      (∀ sc : List (String × (ℝ × ℝ)),
        (sortDesc (fun x : String × (ℝ × ℝ) => toLex x.2) sc).Pairwise
            (fun x y => y.2.1 < x.2.1 ∨ (y.2.1 = x.2.1 ∧ y.2.2 ≤ x.2.2)) ∧
          List.Perm (sortDesc (fun x : String × (ℝ × ℝ) => toLex x.2) sc) sc) ∧
      top_sentences ["cat"]
        [("B", ["cat", "cat", "dog", "dog", "dog", "dog", "dog", "dog"]),
          ("A", ["cat", "cat", "dog", "dog"])]
        (fun w => if w = "cat" then some 1 else none) 2 = Except.ok ["A", "B"] := by
  refine ⟨fun query sentences idfs n hne hq => top_sentences_eq hne hq n,
    fun sc => ⟨(sortDesc_pairwise _ sc).imp ?_, sortDesc_perm _ sc⟩, ?_⟩
  · intro x y hxy
    exact (Prod.Lex.le_iff y.2 x.2).mp hxy
  · have hsc : scoreSentences ["cat"]
        [("B", ["cat", "cat", "dog", "dog", "dog", "dog", "dog", "dog"]),
          ("A", ["cat", "cat", "dog", "dog"])]
        (fun w => if w = "cat" then some 1 else none) =
        Except.ok [("B", ((1 : ℝ), (1 / 4 : ℝ))), ("A", (1, 1 / 2))] := by
      norm_num [scoreSentences, scoreSentence, idfSum, queryTermDensity, excMap,
        Except.map, show ("dog" : String) ≠ "cat" from by decide]
    unfold top_sentences
    rw [hsc]
    have hlt : toLex ((1 : ℝ), (1 / 4 : ℝ)) < toLex ((1 : ℝ), (1 / 2 : ℝ)) := by
      rw [Prod.Lex.lt_iff]
      norm_num
    norm_num [sortDesc, insDesc, hlt, Except.map]

/-- Concrete instantiation of claim C5's covered part on two fully covered
sentences. -/
theorem C5_witness :
    (∀ s ∈ ([("s1", ["cat"]), ("s2", ["dog"])] : List (String × List String)),
        s.2 ≠ []) ∧
      (∀ s ∈ ([("s1", ["cat"]), ("s2", ["dog"])] : List (String × List String)),
        ∀ w ∈ s.2, ((fun _ => some (1 : ℝ)) w).isSome) ∧
      top_sentences ["cat"] [("s1", ["cat"]), ("s2", ["dog"])]
          (fun _ => some (1 : ℝ)) 1 =
        Except.ok (((sortDesc (fun x : String × (ℝ × ℝ) => toLex x.2)
          (([("s1", ["cat"]), ("s2", ["dog"])] :
              List (String × List String)).map (fun s =>
            (s.1, (specIdfSum ["cat"] (fun _ => some (1 : ℝ)) s.2,
              specDensity ["cat"] s.2))))).take 1).map Prod.fst) :=
  ⟨by decide, fun s _ w _ => rfl,
    C5_top_sentences_ranking.1 _ _ _ 1 (by decide) (fun s _ w _ => rfl)⟩

/-- Claim C6: whenever `top_files` or `top_sentences` returns a list, its
length is exactly `min n` (size of the input mapping): `n = 0` yields the
empty sequence and an `n` exceeding the collection size returns everything,
with no error from over-asking. -/
theorem C6_truncation :
    (∀ (query : List String) (files : List (String × List String))
        (idfs : String → Option ℝ) (n : ℕ) (l : List String),
        top_files query files idfs n = some l → l.length = min n files.length) ∧
      (∀ (query : List String) (sentences : List (String × List String))
        (idfs : String → Option ℝ) (n : ℕ) (l : List String),
        top_sentences query sentences idfs n = Except.ok l →
          l.length = min n sentences.length) := by
  constructor
  · intro query files idfs n l h
    unfold top_files at h
    cases hsc : scoreFiles query files idfs with
    | none => rw [hsc] at h; cases h
    | some sc =>
      rw [hsc, Option.map_some'] at h
      injection h with h
      subst h
      rw [List.length_map, List.length_take, sortDesc_length]
      have hlen : sc.length = files.length := by
        unfold scoreFiles at hsc
        exact optMap_length hsc
      rw [hlen]
  · intro query sentences idfs n l h
    unfold top_sentences at h
    cases hsc : scoreSentences query sentences idfs with
    | error e => rw [hsc] at h; cases h
    | ok sc =>
      rw [hsc] at h
      simp only [Except.map] at h
      injection h with h
      subst h
      rw [List.length_map, List.length_take, sortDesc_length]
      have hlen : sc.length = sentences.length := by
        unfold scoreSentences at hsc
        exact excMap_length hsc
      rw [hlen]

/-- Concrete instantiations of claim C6: `n = 0` on one file yields the
empty list, and `n = 1` on one sentence returns it. -/
theorem C6_witness :
    top_files [] [("a", [])] (fun _ => none) 0 = some [] ∧
      ([] : List String).length =
        min 0 ([("a", ([] : List String))] : List (String × List String)).length ∧
      top_sentences [] [("s", ["cat"])] (fun _ => none) 1 = Except.ok ["s"] ∧
      (["s"] : List String).length =
        min 1 ([("s", ["cat"])] : List (String × List String)).length :=
  ⟨rfl, C6_truncation.1 [] [("a", [])] (fun _ => none) 0 [] rfl,
    rfl, C6_truncation.2 [] [("s", ["cat"])] (fun _ => none) 1 ["s"] rfl⟩

/-- Claim C10: `top_sentences` looks an IDF value up only for query words
occurring in the sentence being scored (the filter of line 166 precedes the
subscript), so whenever the IDF table covers every token of every sentence,
no lookup error can occur - even if query tokens are absent from the table -
and, when additionally every sentence is non-empty, the call succeeds. -/
theorem C10_no_lookup_error (query : List String)
    (sentences : List (String × List String)) (idfs : String → Option ℝ) (n : ℕ)
    (hcov : ∀ s ∈ sentences, ∀ w ∈ s.2, (idfs w).isSome) :
    top_sentences query sentences idfs n ≠ Except.error SErr.keyError ∧
      ((∀ s ∈ sentences, s.2 ≠ []) →
        ∃ l, top_sentences query sentences idfs n = Except.ok l) := by
  constructor
  · intro hbad
    unfold top_sentences at hbad
    have hscore : scoreSentences query sentences idfs =
        Except.error SErr.keyError := except_map_eq_error.mp hbad
    unfold scoreSentences at hscore
    rcases excMap_error_mem hscore with ⟨s, hs, hmap⟩
    exact scoreSentence_ne_keyError (hcov s hs) (except_map_eq_error.mp hmap)
  · intro hne
    exact ⟨_, top_sentences_eq hne hcov n⟩

/-- Concrete instantiation of claim C10: the query token `zzz` has no IDF
entry, yet `top_sentences` succeeds because all sentence tokens are
covered. -/
theorem C10_witness :
    (∀ s ∈ ([("s", ["cat", "dog"])] : List (String × List String)), ∀ w ∈ s.2,
        ((fun w => if w = "cat" then some (1 : ℝ)
          else if w = "dog" then some 2 else none) w).isSome) ∧
      (fun w => if w = "cat" then some (1 : ℝ)
        else if w = "dog" then some 2 else none) "zzz" = none ∧
      top_sentences ["zzz", "cat"] [("s", ["cat", "dog"])]
        (fun w => if w = "cat" then some (1 : ℝ)
          else if w = "dog" then some 2 else none) 1 ≠
        Except.error SErr.keyError ∧
      top_sentences ["zzz", "cat"] [("s", ["cat", "dog"])]
        (fun w => if w = "cat" then some (1 : ℝ)
          else if w = "dog" then some 2 else none) 1 = Except.ok ["s"] := by
  refine ⟨by decide, rfl, ?_, rfl⟩
  exact (C10_no_lookup_error _ _ _ 1 (by decide)).1

end Questions
